import Mathlib

/-!
Verification development for the construction-inventory application
(`app.py`, `google_sheets_manager.py`, `utils.py`).

Register rows are shallowly embedded as Lean structures.  Spreadsheet
cells that the code casts with `astype(float)` / `float(...)` are
modelled as `Option ℚ`: `some q` is a cell the cast converts to the
number `q`, `none` is a non-numeric cell on which the cast raises.
An operation whose body sits in a `try ... except` that returns
`None` / an empty table is modelled as a function into `Option _`,
with `none` standing for the caught-exception outcome.
Expiry dates already run through `pd.to_datetime(..., errors=coerce)`
are modelled as `Option Int` (a day number; `none` is `NaT`, i.e. a
missing, blank or unparseable date).
-/

/-- One row of the Inward Register, with the fields the aggregation
code consults (`Date`, `Material`, `Grade`, `Vendor`, `Quantity`,
`Unit`, `Rate`, `Expiry Date`). -/
structure InwardRow where
  date : String
  material : String
  grade : String
  vendor : String
  quantity : Option ℚ
  unit : String
  rate : Option ℚ
  expiry : Option Int
deriving DecidableEq

/-- One row of the Outward Register. -/
structure OutwardRow where
  date : String
  material : String
  grade : String
  quantity : Option ℚ
  unit : String
  issuedTo : String
  purpose : String
  issuedBy : String
deriving DecidableEq

/-- One row of the Returns Register (fields used by aggregation). -/
structure ReturnRow where
  date : String
  material : String
  quantity : Option ℚ
deriving DecidableEq

/-- One row of the Damage Loss Register (`Quantity Lost/Damaged`). -/
structure DamageRow where
  date : String
  material : String
  quantity : Option ℚ
deriving DecidableEq

/-- One row of the Low Stock Limits sheet.  `limit` is the
`Low Stock Limit` cell as seen by `float(...)`: `none` when the cast
would raise. -/
structure LimitRow where
  material : String
  grade : String
  limit : Option ℚ
deriving DecidableEq

/-- Sequence a list of optional values: `some` of the list of values
when every element is `some`, otherwise `none`.  This is the effect of
applying a fallible per-element conversion across a whole column. -/
def optList (f : α → Option β) : List α → Option (List β)
  | [] => some []
  | a :: l =>
    match f a, optList f l with
    | some b, some bl => some (b :: bl)
    | _, _ => none

/-- `column.astype(float).sum()`: the sum of a column of cells, raising
(`none`) as soon as one cell is non-numeric.  On an empty column the
sum is `0`, which also matches the `if not df.empty else 0` guards in
the source. -/
def astypeFloatSum (l : List (Option ℚ)) : Option ℚ :=
  (optList id l).map (fun xs => xs.sum)

/-- `(qty.astype(float) * rate.astype(float)).sum()`: the sum of
quantity-times-rate over a list of cell pairs, raising (`none`) as soon
as either cast fails. -/
def astypeProdSum (l : List (Option ℚ × Option ℚ)) : Option ℚ :=
  (optList (fun p =>
    match p.1, p.2 with
    | some a, some b => some (a * b)
    | _, _ => none) l).map (fun xs => xs.sum)

/-- The inward-register filter of `calculate_material_stock`: by
material and grade when a grade is given, by material alone otherwise. -/
def inwardFilter (inw : List InwardRow) (m : String) (g : Option String) :
    List InwardRow :=
  match g with
  | some gr => inw.filter (fun r => r.material == m && r.grade == gr)
  | none => inw.filter (fun r => r.material == m)

/-- The outward-register filter of `calculate_material_stock`. -/
def outwardFilter (outw : List OutwardRow) (m : String) (g : Option String) :
    List OutwardRow :=
  match g with
  | some gr => outw.filter (fun r => r.material == m && r.grade == gr)
  | none => outw.filter (fun r => r.material == m)

/-- `inward_filtered['Unit'].iloc[0] if not inward_filtered.empty else "Units"`. -/
def firstUnit : List InwardRow → String
  | [] => "Units"
  | r :: _ => r.unit

/-- The dictionary returned by `calculate_material_stock`. -/
structure StockInfo where
  totalInward : ℚ
  totalOutward : ℚ
  currentStock : ℚ
  avgRate : ℚ
  stockValue : ℚ
  unit : String
deriving DecidableEq

/-- `calculate_material_stock` (app.py): filter inward and outward rows
by material/grade, sum quantities, set `current_stock` to inward minus
outward, and compute the weighted-average rate and stock value only
when there are inward rows with positive total quantity.  `none` models
the `except` branch (the function returns `None`), reached when an
`astype(float)` cast raises. -/
def calculate_material_stock (inw : List InwardRow) (outw : List OutwardRow)
    (m : String) (g : Option String) : Option StockInfo :=
  let inf := inwardFilter inw m g
  let outf := outwardFilter outw m g
  match astypeFloatSum (inf.map (fun r => r.quantity)),
        astypeFloatSum (outf.map (fun r => r.quantity)) with
  | some ti, some tou =>
    let cs := ti - tou
    if inf ≠ [] ∧ 0 < ti then
      match astypeProdSum (inf.map (fun r => (r.quantity, r.rate))) with
      | some amt => some ⟨ti, tou, cs, amt / ti, cs * (amt / ti), firstUnit inf⟩
      | none => none
    else
      some ⟨ti, tou, cs, 0, 0, "Units"⟩
  | _, _ => none

/-- One row of the reconciliation table built by
`calculate_reconciliation` (google_sheets_manager.py). -/
structure ReconRow where
  material : String
  totalInward : ℚ
  totalOutward : ℚ
  totalReturns : ℚ
  totalLoss : ℚ
  currentStock : ℚ
deriving DecidableEq

/-- The `materials` set of `calculate_reconciliation`: materials
appearing in the Inward or Outward registers, without duplicates. -/
def materialList (inw : List InwardRow) (outw : List OutwardRow) : List String :=
  ((inw.map (fun r => r.material)) ++ (outw.map (fun r => r.material))).eraseDups

/-- The loop body of `calculate_reconciliation` for one material:
per-register `astype(float)` sums over the rows of that material, and
`current_stock = inward + returns - outward - loss`. -/
def materialTotals (inw : List InwardRow) (outw : List OutwardRow)
    (ret : List ReturnRow) (dam : List DamageRow) (m : String) :
    Option ReconRow :=
  match astypeFloatSum ((inw.filter (fun r => r.material == m)).map (fun r => r.quantity)),
        astypeFloatSum ((outw.filter (fun r => r.material == m)).map (fun r => r.quantity)),
        astypeFloatSum ((ret.filter (fun r => r.material == m)).map (fun r => r.quantity)),
        astypeFloatSum ((dam.filter (fun r => r.material == m)).map (fun r => r.quantity)) with
  | some ti, some tou, some tr, some tl =>
    some ⟨m, ti, tou, tr, tl, ti + tr - tou - tl⟩
  | _, _, _, _ => none

/-- `calculate_reconciliation` (google_sheets_manager.py): one row per
material of the inward/outward union; `none` models the `except`
branch (the function returns an empty table after `st.error`), reached
when any cast in the loop raises. -/
def calculate_reconciliation (inw : List InwardRow) (outw : List OutwardRow)
    (ret : List ReturnRow) (dam : List DamageRow) : Option (List ReconRow) :=
  optList (materialTotals inw outw ret dam) (materialList inw outw)

/-- One row of the daily closing report built by
`generate_daily_closing` (google_sheets_manager.py). -/
structure ClosingRow where
  date : String
  material : String
  openingStock : ℚ
  received : ℚ
  issued : ℚ
  returned : ℚ
  losses : ℚ
  closingStock : ℚ
deriving DecidableEq

/-- The loop body of `generate_daily_closing` for one reconciliation
row: same-day per-register sums, `opening = current - received -
returned + issued + losses`, `closing = current`. -/
def closingFor (inw : List InwardRow) (outw : List OutwardRow)
    (ret : List ReturnRow) (dam : List DamageRow) (d : String)
    (r : ReconRow) : Option ClosingRow :=
  match astypeFloatSum ((inw.filter (fun x => x.date == d && x.material == r.material)).map (fun x => x.quantity)),
        astypeFloatSum ((outw.filter (fun x => x.date == d && x.material == r.material)).map (fun x => x.quantity)),
        astypeFloatSum ((ret.filter (fun x => x.date == d && x.material == r.material)).map (fun x => x.quantity)),
        astypeFloatSum ((dam.filter (fun x => x.date == d && x.material == r.material)).map (fun x => x.quantity)) with
  | some rcv, some iss, some rtd, some los =>
    some ⟨d, r.material, r.currentStock - rcv - rtd + iss + los,
          rcv, iss, rtd, los, r.currentStock⟩
  | _, _, _, _ => none

/-- `generate_daily_closing` (google_sheets_manager.py): the current
reconciliation plus, per material, the day's movements and the
opening/closing stocks derived from them. -/
def generate_daily_closing (inw : List InwardRow) (outw : List OutwardRow)
    (ret : List ReturnRow) (dam : List DamageRow) (d : String) :
    Option (List ClosingRow) :=
  match calculate_reconciliation inw outw ret dam with
  | some recon => optList (closingFor inw outw ret dam d) recon
  | none => none

/-- Low Stock Alert of the Dashboard page: one stock line per
(material, unit) pair of the inward register. -/
structure DashEntry where
  material : String
  unit : String
  totalInward : ℚ
  totalOutward : ℚ
  currentStock : ℚ
deriving DecidableEq

/-- The groupby keys of the dashboard stock summary: the (Material,
Unit) pairs of the inward register (the outward side is merged with
`how=left`, so outward-only pairs do not appear). -/
def dashboardKeys (inw : List InwardRow) : List (String × String) :=
  (inw.map (fun r => (r.material, r.unit))).eraseDups

/-- One merged row of the dashboard stock summary: the inward and
outward quantity sums of a (material, unit) pair, the missing outward
side filled with `0`, and `Current Stock = Total Inward - Total
Outward`.  A non-numeric quantity raises out of the section. -/
def dashboardEntry (inw : List InwardRow) (outw : List OutwardRow)
    (k : String × String) : Option DashEntry :=
  match astypeFloatSum ((inw.filter (fun r => r.material == k.1 && r.unit == k.2)).map (fun r => r.quantity)),
        astypeFloatSum ((outw.filter (fun r => r.material == k.1 && r.unit == k.2)).map (fun r => r.quantity)) with
  | some ti, some tou => some ⟨k.1, k.2, ti, tou, ti - tou⟩
  | _, _ => none

/-- The `stock_summary` table of the dashboard Low Stock Alert section. -/
def dashboardStockSummary (inw : List InwardRow) (outw : List OutwardRow) :
    Option (List DashEntry) :=
  optList (dashboardEntry inw outw) (dashboardKeys inw)

/-- The `low_stock` table of the dashboard:
`stock_summary[stock_summary['Current Stock'] <= 10]`. -/
def dashboardLowStock (inw : List InwardRow) (outw : List OutwardRow) :
    Option (List DashEntry) :=
  (dashboardStockSummary inw outw).map
    (fun l => l.filter (fun e => decide (e.currentStock ≤ 10)))

/-- Modelled from the spec (no such computation exists in the source):
the dashboard heuristic as the spec words it, flagging a material low
exactly when cumulative outward exceeds 80 percent of cumulative
inward.  Kept only to compare against the source's dashboard filter. -/
def dashboardLowStockSpecFlag (totalIn totalOut : ℚ) : Bool :=
  decide ((4 / 5 : ℚ) * totalIn < totalOut)

/-- `get_low_stock_limit` (app.py): first matching row of the Low
Stock Limits sheet, its limit cell cast with `float(...)`; `none` when
no row matches or the cast raises (the `except` returns `None`). -/
def get_low_stock_limit (limits : List LimitRow) (m : String)
    (g : Option String) : Option ℚ :=
  let rows : List LimitRow :=
    match g with
    | some gr => limits.filter (fun r => r.material == m && r.grade == gr)
    | none => limits.filter (fun r => r.material == m && r.grade == "")
  match rows with
  | [] => none
  | r :: _ => r.limit

/-- Python truthiness of `low_stock_limit and current_stock <=
low_stock_limit`: a limit of `None` or `0.0` is falsy. -/
def limitTruthy : Option ℚ → ℚ → Bool
  | none, _ => false
  | some l, cs => decide (¬ l = 0) && decide (cs ≤ l)

/-- The status ladder of `calculate_all_material_stock` (app.py):
`current_stock <= 0` gives Out of Stock, otherwise a truthy limit with
`current_stock <= limit` gives Low Stock, otherwise In Stock. -/
def stockStatus (cs : ℚ) (lim : Option ℚ) : String :=
  if cs ≤ 0 then "Out of Stock"
  else if limitTruthy lim cs then "Low Stock"
  else "In Stock"

/-- One entry of the `stock_data` list built by
`calculate_all_material_stock`. -/
structure StockEntry where
  material : String
  grade : Option String
  currentStock : ℚ
  unit : String
  avgRate : ℚ
  stockValue : ℚ
  lowStockLimitCell : Option ℚ
  status : String
deriving DecidableEq

/-- `row['Grade'] if pd.notna(row['Grade']) and row['Grade'] != "" else None`. -/
def normGrade (g : String) : Option String :=
  if g = "" then none else some g

/-- `low_stock_limit if low_stock_limit else ""`: the display cell for
the limit, empty when the limit is falsy (`None` or `0.0`). -/
def limitCell : Option ℚ → Option ℚ
  | none => none
  | some l => if l = 0 then none else some l

/-- The loop body of `calculate_all_material_stock` for one (material,
grade) pair: per-pair stock info, limit lookup and status; `none`
models the `if stock_info:` skip when `calculate_material_stock`
returned `None`. -/
def stockEntryFor (inw : List InwardRow) (outw : List OutwardRow)
    (limits : List LimitRow) (c : String × String) : Option StockEntry :=
  let g := normGrade c.2
  match calculate_material_stock inw outw c.1 g with
  | none => none
  | some af =>
    let lim := get_low_stock_limit limits c.1 g
    some ⟨c.1, g, af.currentStock, af.unit, af.avgRate, af.stockValue,
          limitCell lim, stockStatus af.currentStock lim⟩

/-- The (Material, Grade) pairs of the inward register, deduplicated. -/
def materialCombos (inw : List InwardRow) : List (String × String) :=
  (inw.map (fun r => (r.material, r.grade))).eraseDups

/-- `calculate_all_material_stock` (app.py): one entry per (material,
grade) pair of the inward register, skipping pairs whose stock
calculation failed, sorted by stock value descending. -/
def calculate_all_material_stock (inw : List InwardRow)
    (outw : List OutwardRow) (limits : List LimitRow) : List StockEntry :=
  ((materialCombos inw).filterMap (stockEntryFor inw outw limits)).mergeSort
    (fun a b => decide (b.stockValue ≤ a.stockValue))

/-- The rows of the Expiry Management page that enter expiry
evaluation: those whose `Expiry Date` parsed (`notna()` after
`to_datetime(..., errors=coerce)`). -/
def validExpiryRows (inw : List InwardRow) : List InwardRow :=
  inw.filter (fun r => r.expiry.isSome)

/-- `Days Until Expiry` of a row (only ever used on rows whose expiry
parsed; the `0` default for `none` is never reached through
`validExpiryRows`). -/
def daysOf (today : Int) (r : InwardRow) : Int :=
  match r.expiry with
  | some e => e - today
  | none => 0

/-- `expired_items`: valid-expiry rows with `Days Until Expiry < 0`. -/
def expiredItems (inw : List InwardRow) (today : Int) : List InwardRow :=
  (validExpiryRows inw).filter (fun r => decide (daysOf today r < 0))

/-- `critical_items`: valid-expiry rows with `0 <= days <= 7`. -/
def criticalItems (inw : List InwardRow) (today : Int) : List InwardRow :=
  (validExpiryRows inw).filter
    (fun r => decide (0 ≤ daysOf today r) && decide (daysOf today r ≤ 7))

/-- `warning_items`: valid-expiry rows with `7 < days <= 30`. -/
def warningItems (inw : List InwardRow) (today : Int) : List InwardRow :=
  (validExpiryRows inw).filter
    (fun r => decide (7 < daysOf today r) && decide (daysOf today r ≤ 30))

/-- `normal_items`: valid-expiry rows with `days > 30`. -/
def normalItems (inw : List InwardRow) (today : Int) : List InwardRow :=
  (validExpiryRows inw).filter (fun r => decide (30 < daysOf today r))

/-- The `Status` lambda of the Expiry Management table (emoji prefixes
dropped): Expired below zero, Critical up to 7, Warning up to 30,
Normal beyond. -/
def expiryStatusLabel (d : Int) : String :=
  if d < 0 then "Expired"
  else if d ≤ 7 then "Critical"
  else if d ≤ 30 then "Warning"
  else "Normal"

/-- One line of the reconciliation form before submission. -/
structure ReconInput where
  material : String
  grade : String
  unit : String
  theoretical : ℚ
  actual : ℚ
deriving DecidableEq

/-- One item of `reconciliation_data` on the Stock Reconciliation page. -/
structure ReconItem where
  material : String
  grade : String
  unit : String
  theoretical : ℚ
  actual : ℚ
  variance : ℚ
deriving DecidableEq

/-- The per-line computation of the reconciliation form:
`variance = actual - theoretical`. -/
def mkReconItem (i : ReconInput) : ReconItem :=
  ⟨i.material, i.grade, i.unit, i.theoretical, i.actual,
   i.actual - i.theoretical⟩

/-- `reconciliation_data`: every form line with its variance. -/
def buildReconItems (l : List ReconInput) : List ReconItem :=
  l.map mkReconItem

/-- The Submit Reconciliation filter: a row is appended exactly when
`item['Actual'] > 0 or item['Variance'] != 0`. -/
def submitReconciliation (items : List ReconItem) : List ReconItem :=
  items.filter (fun i => decide (0 < i.actual) || decide (i.variance ≠ 0))

/-- The Add Inward Entry form fields consulted by its submit handler. -/
structure InwardForm where
  date : String
  material : String
  grade : String
  vendor : String
  quantity : ℚ
  unit : String
  rate : ℚ
  invoice : String
  receivedBy : String
  expiry : Option Int
  remarks : String
deriving DecidableEq

/-- The Add Inward Entry validation condition: `material_name and
vendor != "Select Vendor" and quantity > 0 and rate > 0 and
invoice_number and received_by` (empty strings are falsy). -/
def validInwardForm (f : InwardForm) : Bool :=
  (f.material != "") && (f.vendor != "Select Vendor") &&
    decide (0 < f.quantity) && decide (0 < f.rate) &&
    (f.invoice != "") && (f.receivedBy != "")

/-- The register row built from a valid inward form. -/
def inwardRowOfForm (f : InwardForm) : InwardRow :=
  ⟨f.date, f.material, f.grade, f.vendor, some f.quantity, f.unit,
   some f.rate, f.expiry⟩

/-- The Add Inward Entry submit handler: append the row and succeed
when validation passes, otherwise leave the register unchanged and
report the validation error (`false`). -/
def submitInwardEntry (reg : List InwardRow) (f : InwardForm) :
    List InwardRow × Bool :=
  if validInwardForm f then (reg ++ [inwardRowOfForm f], true)
  else (reg, false)

/-- The Issue Material (outward) form fields consulted by its submit
handler. -/
structure OutwardForm where
  date : String
  material : String
  grade : String
  quantity : ℚ
  unit : String
  issuedTo : String
  purpose : String
  issuedBy : String
  remarks : String
deriving DecidableEq

/-- The Issue Material validation condition: `material_name and
quantity > 0 and issued_to and issued_by`. -/
def validOutwardForm (f : OutwardForm) : Bool :=
  (f.material != "") && decide (0 < f.quantity) &&
    (f.issuedTo != "") && (f.issuedBy != "")

/-- The register row built from a valid outward form. -/
def outwardRowOfForm (f : OutwardForm) : OutwardRow :=
  ⟨f.date, f.material, f.grade, some f.quantity, f.unit, f.issuedTo,
   f.purpose, f.issuedBy⟩

/-- The Issue Material submit handler: append the row and succeed when
validation passes, otherwise leave the register unchanged and report
the validation error (`false`). -/
def submitOutwardEntry (reg : List OutwardRow) (f : OutwardForm) :
    List OutwardRow × Bool :=
  if validOutwardForm f then (reg ++ [outwardRowOfForm f], true)
  else (reg, false)


/-! Concrete register rows used by counterexamples and witnesses. -/

/-- Sample inward row: 10 Bags of Cement at rate 50. -/
def sInCement : InwardRow := ⟨"2024-01-05", "Cement", "", "V", some 10, "Bags", some 50, none⟩

/-- Sample returns row: 5 units of Cement returned. -/
def sRetCement : ReturnRow := ⟨"2024-01-05", "Cement", some 5⟩

/-- Sample outward row: 3 Bags of Cement issued. -/
def sOutCement : OutwardRow := ⟨"2024-01-05", "Cement", "", some 3, "Bags", "X", "Slab Work", "Y"⟩

/-- Sample well-formed inward row: 5 Kg of Steel at rate 60. -/
def sInSteelOk : InwardRow := ⟨"2024-01-06", "Steel", "", "V", some 5, "Kg", some 60, none⟩

/-- Sample malformed inward row: non-numeric Quantity cell. -/
def sInSteelBad : InwardRow := ⟨"2024-01-06", "Steel", "", "V", none, "Kg", some 60, none⟩

/-- Sample malformed inward row: numeric quantity, non-numeric Rate cell. -/
def sInSteelBadRate : InwardRow := ⟨"2024-01-06", "Steel", "", "V", some 5, "Kg", none, none⟩

/-- Sample malformed outward row: non-numeric Quantity cell. -/
def sOutSteelBad : OutwardRow := ⟨"2024-01-06", "Steel", "", none, "Kg", "X", "Slab Work", "Y"⟩

/-- Sample malformed returns row: non-numeric Quantity cell. -/
def sRetSteelBad : ReturnRow := ⟨"2024-01-06", "Steel", none⟩

/-- Sample inward row: 100 Kg of Steel grade 10mm at rate 60. -/
def sInSteel100 : InwardRow := ⟨"2024-01-07", "Steel", "10mm", "V", some 100, "Kg", some 60, none⟩

/-- Sample outward row: 40 Kg of Steel grade 10mm issued. -/
def sOutSteel40 : OutwardRow := ⟨"2024-01-07", "Steel", "10mm", some 40, "Kg", "X", "Slab Work", "Y"⟩

/-- Sample outward row: 5 Bags of Cement grade OPC 53 issued. -/
def sOutCementOpc : OutwardRow := ⟨"2024-01-08", "Cement", "OPC 53", some 5, "Bags", "X", "Slab Work", "Y"⟩


/-- Sample low-stock limit row: Steel 10mm, threshold 70. -/
def sLimSteel70 : LimitRow := ⟨"Steel", "10mm", some 70⟩

/-- Sample inward row whose expiry parses to day 5. -/
def sExp5 : InwardRow := ⟨"2024-01-08", "Adhesive", "", "V", some 2, "Nos", some 100, some 5⟩

/-- Sample inward row whose expiry parses to day 45. -/
def sExp45 : InwardRow := ⟨"2024-01-08", "Paint", "", "V", some 3, "Litre", some 200, some 45⟩

/-- Sample inward row with a missing/unparseable expiry date. -/
def sExpNone : InwardRow := ⟨"2024-01-08", "Sand", "", "V", some 7, "CFT", some 30, none⟩

/-- Sample reconciliation line: theoretical 60, actual 55. -/
def sReconA : ReconInput := ⟨"Steel", "10mm", "Kg", 60, 55⟩

/-- Sample reconciliation line: theoretical 0, actual 0. -/
def sReconZ : ReconInput := ⟨"Sand", "", "CFT", 0, 0⟩

/-- Sample dashboard inward row: 100 Bags of Cement. -/
def sInCem100 : InwardRow := ⟨"d", "Cement", "", "V", some 100, "Bags", some 50, none⟩

/-- Sample dashboard outward row: 85 Bags of Cement. -/
def sOutCem85 : OutwardRow := ⟨"d", "Cement", "", some 85, "Bags", "X", "P", "Y"⟩

/-- Sample inward form with all required fields present. -/
def sInwForm : InwardForm :=
  ⟨"2024-01-09", "Steel", "10mm", "VendorA", 10, "Kg", 60, "INV1", "Alice", none, ""⟩

/-- Sample inward form with no vendor chosen. -/
def sInwFormBad : InwardForm :=
  ⟨"2024-01-09", "Steel", "10mm", "Select Vendor", 10, "Kg", 60, "INV1", "Alice", none, ""⟩

/-- Sample outward form with all required fields present. -/
def sOutForm : OutwardForm :=
  ⟨"2024-01-09", "Steel", "10mm", 4, "Kg", "Bob", "Slab Work", "Carol", ""⟩

/-- Sample outward form with an empty issued-to field. -/
def sOutFormBad : OutwardForm :=
  ⟨"2024-01-09", "Steel", "10mm", 4, "Kg", "", "Slab Work", "Carol", ""⟩

/-- Every member of a successful `optList` run comes from a list
element on which `f` succeeded with exactly that value. -/
theorem optList_mem {f : α → Option β} :
    ∀ {l : List α} {res : List β}, optList f l = some res →
      ∀ b ∈ res, ∃ a ∈ l, f a = some b := by
  intro l
  induction l with
  | nil =>
    intro res h b hb
    simp only [optList] at h
    cases h
    simp at hb
  | cons a l ih =>
    intro res h b hb
    simp only [optList] at h
    cases hfa : f a with
    | none => rw [hfa] at h; simp at h
    | some v =>
      rw [hfa] at h
      cases hrest : optList f l with
      | none => rw [hrest] at h; simp at h
      | some vl =>
        rw [hrest] at h
        simp only [Option.some.injEq] at h
        subst h
        rcases List.mem_cons.mp hb with hb | hb
        · exact ⟨a, List.mem_cons_self a l, by rw [hfa, hb]⟩
        · rcases ih hrest b hb with ⟨x, hx, hfx⟩
          exact ⟨x, List.mem_cons_of_mem a hx, hfx⟩

/-- If some cell in the column is non-numeric, the cast-and-sum raises. -/
theorem astypeFloatSum_none {l : List (Option ℚ)} (h : none ∈ l) :
    astypeFloatSum l = none := by
  induction l with
  | nil => simp at h
  | cons c l ih =>
    rcases List.mem_cons.mp h with hc | hc
    · subst hc
      simp [astypeFloatSum, optList]
    · have := ih hc
      simp only [astypeFloatSum, optList, id] at this ⊢
      cases c with
      | none => simp
      | some q =>
        cases hrest : optList id l with
        | none => simp
        | some vl =>
          rw [hrest] at this
          simp at this


/-- Inversion of a successful `calculate_material_stock` run: the
per-register sums it rests on, `current_stock = inward - outward`, and
the two branches of the average-rate computation. -/
theorem calculate_material_stock_inv {inw : List InwardRow}
    {outw : List OutwardRow} {m : String} {g : Option String}
    {af : StockInfo} (h : calculate_material_stock inw outw m g = some af) :
    astypeFloatSum ((inwardFilter inw m g).map (fun r => r.quantity)) =
        some af.totalInward ∧
    astypeFloatSum ((outwardFilter outw m g).map (fun r => r.quantity)) =
        some af.totalOutward ∧
    af.currentStock = af.totalInward - af.totalOutward ∧
    ((inwardFilter inw m g ≠ [] ∧ 0 < af.totalInward) →
      ∃ amt, astypeProdSum
          ((inwardFilter inw m g).map (fun r => (r.quantity, r.rate))) =
            some amt ∧
        af.avgRate = amt / af.totalInward ∧
        af.stockValue = af.currentStock * af.avgRate ∧
        af.unit = firstUnit (inwardFilter inw m g)) ∧
    (¬ (inwardFilter inw m g ≠ [] ∧ 0 < af.totalInward) →
      af.avgRate = 0 ∧ af.stockValue = 0 ∧ af.unit = "Units") := by
  simp only [calculate_material_stock] at h
  cases h1 : astypeFloatSum ((inwardFilter inw m g).map (fun r => r.quantity)) with
  | none => rw [h1] at h; exact absurd h (by simp)
  | some ti =>
    cases h2 : astypeFloatSum ((outwardFilter outw m g).map (fun r => r.quantity)) with
    | none => rw [h1, h2] at h; exact absurd h (by simp)
    | some tou =>
      rw [h1, h2] at h
      simp only [] at h
      by_cases hc : inwardFilter inw m g ≠ [] ∧ 0 < ti
      · rw [if_pos hc] at h
        cases h3 : astypeProdSum
            ((inwardFilter inw m g).map (fun r => (r.quantity, r.rate))) with
        | none => rw [h3] at h; exact absurd h (by simp)
        | some amt =>
          rw [h3] at h
          injection h with h
          subst h
          refine ⟨rfl, rfl, rfl, fun _ => ⟨amt, rfl, rfl, rfl, rfl⟩, fun hn => absurd hc hn⟩
      · rw [if_neg hc] at h
        injection h with h
        subst h
        exact ⟨rfl, rfl, rfl, fun hp => absurd hp hc, fun _ => ⟨rfl, rfl, rfl⟩⟩

/-- Inversion of a successful `materialTotals` run inside
`calculate_reconciliation`. -/
theorem materialTotals_inv {inw : List InwardRow} {outw : List OutwardRow}
    {ret : List ReturnRow} {dam : List DamageRow} {m : String} {r : ReconRow}
    (h : materialTotals inw outw ret dam m = some r) :
    r.material = m ∧
    astypeFloatSum ((inw.filter (fun x => x.material == m)).map (fun x => x.quantity)) =
        some r.totalInward ∧
    astypeFloatSum ((outw.filter (fun x => x.material == m)).map (fun x => x.quantity)) =
        some r.totalOutward ∧
    astypeFloatSum ((ret.filter (fun x => x.material == m)).map (fun x => x.quantity)) =
        some r.totalReturns ∧
    astypeFloatSum ((dam.filter (fun x => x.material == m)).map (fun x => x.quantity)) =
        some r.totalLoss ∧
    r.currentStock = r.totalInward + r.totalReturns - r.totalOutward - r.totalLoss := by
  simp only [materialTotals] at h
  cases h1 : astypeFloatSum ((inw.filter (fun x => x.material == m)).map (fun x => x.quantity)) with
  | none => rw [h1] at h; exact absurd h (by simp)
  | some ti =>
    cases h2 : astypeFloatSum ((outw.filter (fun x => x.material == m)).map (fun x => x.quantity)) with
    | none => rw [h1, h2] at h; exact absurd h (by simp)
    | some tou =>
      cases h3 : astypeFloatSum ((ret.filter (fun x => x.material == m)).map (fun x => x.quantity)) with
      | none => rw [h1, h2, h3] at h; exact absurd h (by simp)
      | some tr =>
        cases h4 : astypeFloatSum ((dam.filter (fun x => x.material == m)).map (fun x => x.quantity)) with
        | none => rw [h1, h2, h3, h4] at h; exact absurd h (by simp)
        | some tl =>
          rw [h1, h2, h3, h4] at h
          injection h with h
          subst h
          exact ⟨rfl, rfl, rfl, rfl, rfl, rfl⟩

/-- C1 (amended): the reconciliation computation derives
`current_stock = inward + returns - outward - losses` in exact signed
arithmetic for every row it produces, while the per-material stock
calculation derives `current_stock = inward - outward` only, ignoring
the Returns and Damage/Loss registers. -/
theorem current_stock_identity_amended :
    (∀ (inw : List InwardRow) (outw : List OutwardRow) (ret : List ReturnRow)
        (dam : List DamageRow) (rows : List ReconRow) (r : ReconRow),
        calculate_reconciliation inw outw ret dam = some rows → r ∈ rows →
        r.currentStock = r.totalInward + r.totalReturns - r.totalOutward - r.totalLoss) ∧
    (∀ (inw : List InwardRow) (outw : List OutwardRow) (m : String)
        (g : Option String) (af : StockInfo),
        calculate_material_stock inw outw m g = some af →
        af.currentStock = af.totalInward - af.totalOutward) := by
  constructor
  · intro inw outw ret dam rows r hcalc hr
    rcases optList_mem hcalc r hr with ⟨mn, _, hEq⟩
    exact (materialTotals_inv hEq).2.2.2.2.2
  · intro inw outw m g af h
    exact (calculate_material_stock_inv h).2.2.1

/-- C1 fails as stated: on a ledger with 10 Cement inward and 5 Cement
returned, the per-material stock calculation derives current stock 10,
not inward + returns - outward - losses = 15 (which is what the
reconciliation computation derives on the same ledger). -/
theorem material_stock_ignores_returns_cex :
    (calculate_material_stock [sInCement] [] "Cement" none).map
        StockInfo.currentStock = some 10 ∧
    calculate_reconciliation [sInCement] [] [sRetCement] [] =
        some [⟨"Cement", 10, 0, 5, 0, 15⟩] ∧
    (10 : ℚ) ≠ 10 + 5 - 0 - 0 := by
  refine ⟨?_, ?_, by norm_num⟩ <;>
    norm_num +decide [sInCement, sRetCement, calculate_material_stock,
      inwardFilter, outwardFilter, astypeFloatSum, astypeProdSum, optList,
      firstUnit, calculate_reconciliation, materialList, materialTotals,
      List.eraseDups, List.eraseDups.loop]

/-- Witness for the amended C1 at a concrete ledger. -/
theorem current_stock_identity_amended_witness :
    (⟨"Cement", 10, 0, 5, 0, 15⟩ : ReconRow).currentStock =
      (⟨"Cement", 10, 0, 5, 0, 15⟩ : ReconRow).totalInward +
        (⟨"Cement", 10, 0, 5, 0, 15⟩ : ReconRow).totalReturns -
        (⟨"Cement", 10, 0, 5, 0, 15⟩ : ReconRow).totalOutward -
        (⟨"Cement", 10, 0, 5, 0, 15⟩ : ReconRow).totalLoss ∧
    (⟨10, 3, 7, 50, 350, "Bags"⟩ : StockInfo).currentStock =
      (⟨10, 3, 7, 50, 350, "Bags"⟩ : StockInfo).totalInward -
        (⟨10, 3, 7, 50, 350, "Bags"⟩ : StockInfo).totalOutward := by
  have hrec : calculate_reconciliation [sInCement] [] [sRetCement] [] =
      some [⟨"Cement", 10, 0, 5, 0, 15⟩] := by
    norm_num +decide [sInCement, sRetCement, calculate_reconciliation,
      materialList, materialTotals, astypeFloatSum, optList,
      List.eraseDups, List.eraseDups.loop]
  have hms : calculate_material_stock [sInCement] [sOutCement] "Cement" none =
      some ⟨10, 3, 7, 50, 350, "Bags"⟩ := by
    norm_num +decide [sInCement, sOutCement, calculate_material_stock,
      inwardFilter, outwardFilter, astypeFloatSum, astypeProdSum, optList,
      firstUnit]
  exact ⟨current_stock_identity_amended.1 [sInCement] [] [sRetCement] [] _ _
      hrec (by simp),
    current_stock_identity_amended.2 [sInCement] [sOutCement] "Cement" none _ hms⟩

/-- If `f` yields `none` on some list element, the whole `optList` run
yields `none`. -/
theorem optList_none {f : α → Option β} {l : List α} {a : α}
    (ha : a ∈ l) (hfa : f a = none) : optList f l = none := by
  induction l with
  | nil => simp at ha
  | cons b l ih =>
    rcases List.mem_cons.mp ha with hb | hb
    · subst hb
      simp only [optList, hfa]
    · have hrec := ih hb
      simp only [optList, hrec]
      cases f b <;> rfl

/-- If either cell of some pair in the column is non-numeric, the
quantity-times-rate cast-and-sum raises. -/
theorem astypeProdSum_none {l : List (Option ℚ × Option ℚ)}
    {p : Option ℚ × Option ℚ} (hp : p ∈ l)
    (h : p.1 = none ∨ p.2 = none) : astypeProdSum l = none := by
  have hf : (match p.1, p.2 with
      | some a, some b => some (a * b)
      | _, _ => (none : Option ℚ)) = none := by
    rcases h with h | h
    · rw [h]
    · rw [h]
      cases p.1 <;> rfl
  have hnone : optList (fun p : Option ℚ × Option ℚ =>
      match p.1, p.2 with
      | some a, some b => some (a * b)
      | _, _ => none) l = none := optList_none hp hf
  simp [astypeProdSum, hnone]

/-- C2 (amended): a register row with a non-numeric quantity or rate
cell makes the whole aggregation fail and return no result (the raised
cast error is caught at the operation boundary), rather than being
skipped.  A non-numeric quantity in the filtered inward or outward rows
makes the per-material stock calculation return `None`; so does a
non-numeric rate in a filtered inward row whenever the weighted-average
branch is reached (positive total inward quantity); and a non-numeric
quantity in any of the four registers for a reconciled material makes
the reconciliation computation return its empty-table failure result. -/
theorem malformed_quantity_aborts :
    (∀ (inw : List InwardRow) (outw : List OutwardRow) (m : String)
        (g : Option String),
        ((∃ r ∈ inwardFilter inw m g, r.quantity = none) ∨
         (∃ r ∈ outwardFilter outw m g, r.quantity = none)) →
        calculate_material_stock inw outw m g = none) ∧
    (∀ (inw : List InwardRow) (outw : List OutwardRow) (m : String)
        (g : Option String) (ti : ℚ),
        astypeFloatSum ((inwardFilter inw m g).map (fun r => r.quantity)) =
          some ti →
        0 < ti →
        (∃ r ∈ inwardFilter inw m g, r.rate = none) →
        calculate_material_stock inw outw m g = none) ∧
    (∀ (inw : List InwardRow) (outw : List OutwardRow) (ret : List ReturnRow)
        (dam : List DamageRow) (m : String),
        m ∈ materialList inw outw →
        ((∃ r ∈ inw.filter (fun x => x.material == m), r.quantity = none) ∨
         (∃ r ∈ outw.filter (fun x => x.material == m), r.quantity = none) ∨
         (∃ r ∈ ret.filter (fun x => x.material == m), r.quantity = none) ∨
         (∃ r ∈ dam.filter (fun x => x.material == m), r.quantity = none)) →
        calculate_reconciliation inw outw ret dam = none) := by
  refine ⟨?_, ?_, ?_⟩
  · intro inw outw m g h
    cases hres : calculate_material_stock inw outw m g with
    | none => rfl
    | some af =>
      exfalso
      have hi := calculate_material_stock_inv hres
      rcases h with ⟨r, hr, hq⟩ | ⟨r, hr, hq⟩
      · have hs := astypeFloatSum_none (List.mem_map.mpr ⟨r, hr, hq⟩)
        exact Option.noConfusion (hs.symm.trans hi.1)
      · have hs := astypeFloatSum_none (List.mem_map.mpr ⟨r, hr, hq⟩)
        exact Option.noConfusion (hs.symm.trans hi.2.1)
  · rintro inw outw m g ti hsum hpos ⟨r, hr, hrate⟩
    have hne : inwardFilter inw m g ≠ [] := by
      intro he
      rw [he] at hr
      simp at hr
    have hprod : astypeProdSum
        ((inwardFilter inw m g).map (fun r => (r.quantity, r.rate))) = none :=
      astypeProdSum_none (List.mem_map.mpr ⟨r, hr, rfl⟩) (Or.inr hrate)
    cases hres : calculate_material_stock inw outw m g with
    | none => rfl
    | some af =>
      exfalso
      have hi := calculate_material_stock_inv hres
      have hti : af.totalInward = ti := Option.some.inj (hi.1.symm.trans hsum)
      rcases hi.2.2.2.1 ⟨hne, by rw [hti]; exact hpos⟩ with ⟨amt, hamt, _⟩
      rw [hprod] at hamt
      exact Option.noConfusion hamt
  · intro inw outw ret dam m hm h
    have ht : materialTotals inw outw ret dam m = none := by
      cases hmt : materialTotals inw outw ret dam m with
      | none => rfl
      | some row =>
        exfalso
        have hi := materialTotals_inv hmt
        rcases h with ⟨r, hr, hq⟩ | ⟨r, hr, hq⟩ | ⟨r, hr, hq⟩ | ⟨r, hr, hq⟩
        · exact Option.noConfusion
            ((astypeFloatSum_none (List.mem_map.mpr ⟨r, hr, hq⟩)).symm.trans hi.2.1)
        · exact Option.noConfusion
            ((astypeFloatSum_none (List.mem_map.mpr ⟨r, hr, hq⟩)).symm.trans hi.2.2.1)
        · exact Option.noConfusion
            ((astypeFloatSum_none (List.mem_map.mpr ⟨r, hr, hq⟩)).symm.trans hi.2.2.2.1)
        · exact Option.noConfusion
            ((astypeFloatSum_none (List.mem_map.mpr ⟨r, hr, hq⟩)).symm.trans hi.2.2.2.2.1)
    exact optList_none hm ht

/-- C2 fails as stated: with one well-formed Steel row (quantity 5) and
one malformed row (non-numeric quantity), the stock aggregation returns
no result at all instead of the sums over the remaining well-formed
rows (which would be the second conjunct's outcome). -/
theorem malformed_row_not_skipped_cex :
    calculate_material_stock [sInSteelOk, sInSteelBad] [] "Steel" none = none ∧
    calculate_material_stock [sInSteelOk] [] "Steel" none =
      some ⟨5, 0, 5, 60, 300, "Kg"⟩ := by
  constructor <;>
    norm_num +decide [sInSteelOk, sInSteelBad, calculate_material_stock,
      inwardFilter, outwardFilter, astypeFloatSum, astypeProdSum, optList,
      firstUnit]

/-- Witness for the amended C2 at concrete ledgers: a malformed inward
quantity, a malformed outward quantity, a malformed inward rate (with
positive total inward quantity), and malformed inward and returns
quantities in the reconciliation all abort their operation. -/
theorem malformed_quantity_aborts_witness :
    calculate_material_stock [sInSteelOk, sInSteelBad] [] "Steel" none = none ∧
    calculate_material_stock [sInSteelOk] [sOutSteelBad] "Steel" none = none ∧
    calculate_material_stock [sInSteelBadRate] [] "Steel" none = none ∧
    calculate_reconciliation [sInSteelBad] [] [] [] = none ∧
    calculate_reconciliation [sInSteelOk] [] [sRetSteelBad] [] = none := by
  refine ⟨?_, ?_, ?_, ?_, ?_⟩
  · exact malformed_quantity_aborts.1 [sInSteelOk, sInSteelBad] [] "Steel" none
      (Or.inl ⟨sInSteelBad, by decide, rfl⟩)
  · exact malformed_quantity_aborts.1 [sInSteelOk] [sOutSteelBad] "Steel" none
      (Or.inr ⟨sOutSteelBad, by decide, rfl⟩)
  · exact malformed_quantity_aborts.2.1 [sInSteelBadRate] [] "Steel" none 5
      (by norm_num +decide [sInSteelBadRate, inwardFilter, astypeFloatSum,
        optList])
      (by norm_num) ⟨sInSteelBadRate, by decide, rfl⟩
  · exact malformed_quantity_aborts.2.2 [sInSteelBad] [] [] [] "Steel"
      (by decide) (Or.inl ⟨sInSteelBad, by decide, rfl⟩)
  · exact malformed_quantity_aborts.2.2 [sInSteelOk] [] [sRetSteelBad] []
      "Steel" (by decide)
      (Or.inr (Or.inr (Or.inl ⟨sRetSteelBad, by decide, rfl⟩)))

/-- C6: the weighted-average inward rate is the quantity-weighted rate
sum divided by the total inward quantity whenever that total is
positive, and both the average rate and the stock value are exactly 0
whenever the total inward quantity is 0 (the division is guarded, so a
zero total is not an error). -/
theorem weighted_avg_rate_guard :
    ∀ (inw : List InwardRow) (outw : List OutwardRow) (m : String)
      (g : Option String) (af : StockInfo),
      calculate_material_stock inw outw m g = some af →
      (0 < af.totalInward →
        ∃ amt, astypeProdSum
            ((inwardFilter inw m g).map (fun r => (r.quantity, r.rate))) =
              some amt ∧
          af.avgRate = amt / af.totalInward ∧
          af.stockValue = af.currentStock * af.avgRate) ∧
      (af.totalInward = 0 → af.avgRate = 0 ∧ af.stockValue = 0) := by
  intro inw outw m g af h
  have hi := calculate_material_stock_inv h
  constructor
  · intro hpos
    have hne : inwardFilter inw m g ≠ [] := by
      intro he
      have h1 := hi.1
      rw [he] at h1
      simp [astypeFloatSum, optList] at h1
      rw [← h1] at hpos
      exact lt_irrefl 0 hpos
    rcases hi.2.2.2.1 ⟨hne, hpos⟩ with ⟨amt, hamt, havg, hval, _⟩
    exact ⟨amt, hamt, havg, hval⟩
  · intro h0
    have hf := hi.2.2.2.2 (by rintro ⟨_, hpos⟩; rw [h0] at hpos; exact lt_irrefl 0 hpos)
    exact ⟨hf.1, hf.2.1⟩

/-- Witness for C6 at a concrete ledger with zero inward quantity. -/
theorem weighted_avg_rate_guard_witness :
    (⟨0, 5, -5, 0, 0, "Units"⟩ : StockInfo).avgRate = 0 ∧
    (⟨0, 5, -5, 0, 0, "Units"⟩ : StockInfo).stockValue = 0 := by
  have hms : calculate_material_stock [] [sOutCementOpc] "Cement"
      (some "OPC 53") = some ⟨0, 5, -5, 0, 0, "Units"⟩ := by
    norm_num +decide [sOutCementOpc, calculate_material_stock, inwardFilter,
      outwardFilter, astypeFloatSum, astypeProdSum, optList, firstUnit]
  exact (weighted_avg_rate_guard [] [sOutCementOpc] "Cement" (some "OPC 53")
    _ hms).2 rfl

/-- C7: a MaterialKey with no inward rows gets current stock equal to
the negated outward total (surfaced signed, not clamped), average rate
0, stock value 0, and the sentinel unit "Units". -/
theorem no_inward_fallback :
    ∀ (inw : List InwardRow) (outw : List OutwardRow) (m : String)
      (g : Option String) (af : StockInfo),
      inwardFilter inw m g = [] →
      calculate_material_stock inw outw m g = some af →
      af.totalInward = 0 ∧ af.currentStock = -af.totalOutward ∧
      af.avgRate = 0 ∧ af.stockValue = 0 ∧ af.unit = "Units" := by
  intro inw outw m g af he h
  have hi := calculate_material_stock_inv h
  have h0 : af.totalInward = 0 := by
    have h1 := hi.1
    rw [he] at h1
    simp [astypeFloatSum, optList] at h1
    exact h1.symm
  have hf := hi.2.2.2.2 (by rintro ⟨hne, _⟩; exact hne he)
  refine ⟨h0, ?_, hf.1, hf.2.1, hf.2.2⟩
  rw [hi.2.2.1, h0, zero_sub]

/-- Witness for C7: 5 Bags of Cement OPC 53 issued with no inward rows
gives current stock -5, rate and value 0, unit "Units". -/
theorem no_inward_fallback_witness :
    (⟨0, 5, -5, 0, 0, "Units"⟩ : StockInfo).currentStock =
      -(⟨0, 5, -5, 0, 0, "Units"⟩ : StockInfo).totalOutward ∧
    (⟨0, 5, -5, 0, 0, "Units"⟩ : StockInfo).unit = "Units" := by
  have hms : calculate_material_stock [] [sOutCementOpc] "Cement"
      (some "OPC 53") = some ⟨0, 5, -5, 0, 0, "Units"⟩ := by
    norm_num +decide [sOutCementOpc, calculate_material_stock, inwardFilter,
      outwardFilter, astypeFloatSum, astypeProdSum, optList, firstUnit]
  have h := no_inward_fallback [] [sOutCementOpc] "Cement" (some "OPC 53")
    _ rfl hms
  exact ⟨h.2.1, h.2.2.2.2⟩


/-- The status ladder of `stockStatus`, characterised: Out of Stock
exactly on non-positive stock; Low Stock exactly when a limit `l`
exists with `0 < stock <= l`; no limit and positive stock give In
Stock. -/
theorem stockStatus_spec (cs : ℚ) (lim : Option ℚ) :
    (stockStatus cs lim = "Out of Stock" ↔ cs ≤ 0) ∧
    (stockStatus cs lim = "Low Stock" ↔
      ∃ l, lim = some l ∧ 0 < cs ∧ cs ≤ l) ∧
    (lim = none → 0 < cs → stockStatus cs lim = "In Stock") := by
  by_cases h0 : cs ≤ 0
  · refine ⟨iff_of_true (by simp [stockStatus, h0]) h0,
      iff_of_false (by simp [stockStatus, h0]) ?_,
      fun _ hpos => absurd h0 (not_le.mpr hpos)⟩
    rintro ⟨l, _, hpos, _⟩
    exact absurd h0 (not_le.mpr hpos)
  · have hpos : 0 < cs := not_le.mp h0
    cases lim with
    | none =>
      refine ⟨iff_of_false ?_ h0, iff_of_false ?_ ?_, fun _ _ => ?_⟩
      · simp [stockStatus, h0, limitTruthy]
      · simp [stockStatus, h0, limitTruthy]
      · rintro ⟨l, hl, _⟩
        exact Option.noConfusion hl
      · simp [stockStatus, h0, limitTruthy]
    | some l =>
      by_cases hl : limitTruthy (some l) cs = true
      · have hst : stockStatus cs (some l) = "Low Stock" := by
          simp [stockStatus, h0, hl]
        have hparts : ¬ l = 0 ∧ cs ≤ l := by
          simpa [limitTruthy, Bool.and_eq_true, decide_eq_true_eq] using hl
        refine ⟨?_, ?_, fun hn _ => Option.noConfusion hn⟩
        · rw [hst]
          exact iff_of_false (by decide) h0
        · rw [hst]
          exact iff_of_true rfl ⟨l, rfl, hpos, hparts.2⟩
      · have hl2 : limitTruthy (some l) cs = false := by
          exact Bool.not_eq_true _ ▸ (Bool.eq_false_iff.mpr hl)
        have hst : stockStatus cs (some l) = "In Stock" := by
          simp [stockStatus, h0, hl2]
        refine ⟨?_, ?_, fun hn _ => Option.noConfusion hn⟩
        · rw [hst]
          exact iff_of_false (by decide) h0
        · rw [hst]
          refine iff_of_false (by decide) ?_
          rintro ⟨l2, hl2e, _, hle⟩
          injection hl2e with hle2
          subst hle2
          have hfalse : ¬ (¬ l = 0 ∧ cs ≤ l) := by
            simpa [limitTruthy, Bool.and_eq_true, decide_eq_true_eq] using hl
          exact hfalse ⟨fun h00 => absurd (h00 ▸ hle) (not_le.mpr hpos), hle⟩

/-- C3: for every entry produced by `calculate_all_material_stock`,
the status is Out of Stock exactly when current stock is non-positive;
Low Stock exactly when a configured limit `l` exists for the entry's
MaterialKey with `0 < current_stock <= l`; and with no configured limit
every positive current stock is In Stock (no implicit default
threshold). -/
theorem stock_status_policy :
    ∀ (inw : List InwardRow) (outw : List OutwardRow) (limits : List LimitRow)
      (e : StockEntry), e ∈ calculate_all_material_stock inw outw limits →
      (e.status = "Out of Stock" ↔ e.currentStock ≤ 0) ∧
      (e.status = "Low Stock" ↔
        ∃ l, get_low_stock_limit limits e.material e.grade = some l ∧
          0 < e.currentStock ∧ e.currentStock ≤ l) ∧
      (get_low_stock_limit limits e.material e.grade = none →
        0 < e.currentStock → e.status = "In Stock") := by
  intro inw outw limits e he
  simp only [calculate_all_material_stock, List.mem_mergeSort] at he
  rcases List.mem_filterMap.mp he with ⟨c, _, hc⟩
  simp only [stockEntryFor] at hc
  cases hms : calculate_material_stock inw outw c.1 (normGrade c.2) with
  | none =>
    rw [hms] at hc
    exact absurd hc (by simp)
  | some af =>
    rw [hms] at hc
    injection hc with hc
    subst hc
    exact stockStatus_spec af.currentStock
      (get_low_stock_limit limits c.1 (normGrade c.2))

/-- Witness for C3 at a concrete ledger: Steel 10mm with stock 60 and
limit 70 is classified Low Stock. -/
theorem stock_status_policy_witness :
    (⟨"Steel", some "10mm", 60, "Kg", 60, 3600, some 70, "Low Stock"⟩ :
      StockEntry).status = "Low Stock" := by
  have hmem : (⟨"Steel", some "10mm", 60, "Kg", 60, 3600, some 70,
      "Low Stock"⟩ : StockEntry) ∈
      calculate_all_material_stock [sInSteel100] [sOutSteel40] [sLimSteel70] := by
    have hall : calculate_all_material_stock [sInSteel100] [sOutSteel40]
        [sLimSteel70] = [⟨"Steel", some "10mm", 60, "Kg", 60, 3600, some 70,
        "Low Stock"⟩] := by
      norm_num +decide [sInSteel100, sOutSteel40, sLimSteel70,
        calculate_all_material_stock, materialCombos, stockEntryFor,
        calculate_material_stock, inwardFilter, outwardFilter, astypeFloatSum,
        astypeProdSum, optList, firstUnit, get_low_stock_limit, limitCell,
        stockStatus, limitTruthy, normGrade, List.eraseDups,
        List.eraseDups.loop, List.filterMap, List.mergeSort_singleton]
    rw [hall]
    simp
  have h := stock_status_policy [sInSteel100] [sOutSteel40] [sLimSteel70]
    _ hmem
  refine h.2.1.mpr ⟨70, ?_, by norm_num, by norm_num⟩
  norm_num +decide [sLimSteel70, get_low_stock_limit]

/-- C4: a parsed expiry date with `d` days to expiry is classified
Expired for `d < 0`, Critical for `0 <= d <= 7`, Warning for
`7 < d <= 30` and Normal for `d > 30` (both in the category tables and
in the Status label), and a row with a missing, blank or unparseable
expiry date appears in none of the categories (in particular it is not
labelled Normal). -/
theorem expiry_classification :
    (∀ (inw : List InwardRow) (today : Int) (r : InwardRow), r ∈ inw →
      (∀ e, r.expiry = some e →
        (r ∈ expiredItems inw today ↔ e - today < 0) ∧
        (r ∈ criticalItems inw today ↔ 0 ≤ e - today ∧ e - today ≤ 7) ∧
        (r ∈ warningItems inw today ↔ 7 < e - today ∧ e - today ≤ 30) ∧
        (r ∈ normalItems inw today ↔ 30 < e - today)) ∧
      (r.expiry = none →
        r ∉ expiredItems inw today ∧ r ∉ criticalItems inw today ∧
        r ∉ warningItems inw today ∧ r ∉ normalItems inw today)) ∧
    (∀ d : Int,
      (expiryStatusLabel d = "Expired" ↔ d < 0) ∧
      (expiryStatusLabel d = "Critical" ↔ 0 ≤ d ∧ d ≤ 7) ∧
      (expiryStatusLabel d = "Warning" ↔ 7 < d ∧ d ≤ 30) ∧
      (expiryStatusLabel d = "Normal" ↔ 30 < d)) := by
  constructor
  · intro inw today r hr
    constructor
    · intro e he
      refine ⟨?_, ?_, ?_, ?_⟩ <;>
        simp [expiredItems, criticalItems, warningItems, normalItems,
          validExpiryRows, List.mem_filter, hr, daysOf, he]
    · intro he
      refine ⟨?_, ?_, ?_, ?_⟩ <;>
        simp [expiredItems, criticalItems, warningItems, normalItems,
          validExpiryRows, List.mem_filter, hr, daysOf, he]
  · intro d
    unfold expiryStatusLabel
    split_ifs with h1 h2 h3 <;>
      refine ⟨?_, ?_, ?_, ?_⟩ <;>
      first
        | exact iff_of_true rfl (by omega)
        | exact iff_of_false (by decide) (by omega)

/-- Witness for C4 at concrete rows: day-5 expiry is Critical, day-45
expiry is Normal (outside the alert bands), and a row without a parsed
expiry date is in no category. -/
theorem expiry_classification_witness :
    sExp5 ∈ criticalItems [sExp5, sExp45, sExpNone] 0 ∧
    sExp45 ∈ normalItems [sExp5, sExp45, sExpNone] 0 ∧
    sExpNone ∉ normalItems [sExp5, sExp45, sExpNone] 0 ∧
    expiryStatusLabel 5 = "Critical" := by
  have h5 := (expiry_classification.1 [sExp5, sExp45, sExpNone] 0 sExp5
    (by decide)).1 5 rfl
  have h45 := (expiry_classification.1 [sExp5, sExp45, sExpNone] 0 sExp45
    (by decide)).1 45 rfl
  have hn := (expiry_classification.1 [sExp5, sExp45, sExpNone] 0 sExpNone
    (by decide)).2 rfl
  exact ⟨h5.2.1.mpr (by norm_num), h45.2.2.2.mpr (by norm_num), hn.2.2.2,
    (expiry_classification.2 5).2.1.mpr (by norm_num)⟩

/-- C5: every reconciliation item carries
`variance = actual - theoretical`, and an item is persisted by Submit
Reconciliation exactly when `actual > 0` or `variance != 0`; items with
zero actual and zero variance are omitted. -/
theorem reconciliation_variance_filter :
    ∀ (l : List ReconInput) (i : ReconItem), i ∈ buildReconItems l →
      i.variance = i.actual - i.theoretical ∧
      (i ∈ submitReconciliation (buildReconItems l) ↔
        0 < i.actual ∨ i.variance ≠ 0) ∧
      (i.actual = 0 → i.variance = 0 →
        i ∉ submitReconciliation (buildReconItems l)) := by
  intro l i hi
  have hiff : i ∈ submitReconciliation (buildReconItems l) ↔
      0 < i.actual ∨ i.variance ≠ 0 := by
    rw [submitReconciliation, List.mem_filter]
    simp [hi]
  rcases List.mem_map.mp hi with ⟨inp, _, heq⟩
  subst heq
  refine ⟨rfl, hiff, fun ha hv hmem => ?_⟩
  rcases hiff.mp hmem with hp | hp
  · rw [ha] at hp
    exact lt_irrefl 0 hp
  · exact hp hv

/-- Witness for C5 at concrete lines: theoretical 60 / actual 55 gives
variance -5 and is persisted; theoretical 0 / actual 0 is omitted. -/
theorem reconciliation_variance_filter_witness :
    (mkReconItem sReconA).variance = -5 ∧
    mkReconItem sReconA ∈ submitReconciliation (buildReconItems [sReconA, sReconZ]) ∧
    mkReconItem sReconZ ∉ submitReconciliation (buildReconItems [sReconA, sReconZ]) := by
  have hA := reconciliation_variance_filter [sReconA, sReconZ]
    (mkReconItem sReconA) (by simp [buildReconItems])
  have hZ := reconciliation_variance_filter [sReconA, sReconZ]
    (mkReconItem sReconZ) (by simp [buildReconItems])
  refine ⟨?_, ?_, ?_⟩
  · rw [hA.1]
    norm_num [mkReconItem, sReconA]
  · exact hA.2.1.mpr (Or.inl (by norm_num [mkReconItem, sReconA]))
  · exact hZ.2.2 (by norm_num [mkReconItem, sReconZ])
      (by norm_num [mkReconItem, sReconZ])

/-- C8 fails as stated: with 100 Bags of Cement inward and 85 outward,
cumulative outward exceeds 80 percent of cumulative inward (the spec
heuristic flags the material), yet the dashboard low-stock table is
empty because its actual filter is `Current Stock <= 10` and the
current stock is 15. -/
theorem dashboard_heuristic_cex :
    dashboardStockSummary [sInCem100] [sOutCem85] =
        some [⟨"Cement", "Bags", 100, 85, 15⟩] ∧
    dashboardLowStock [sInCem100] [sOutCem85] = some [] ∧
    dashboardLowStockSpecFlag 100 85 = true := by
  refine ⟨?_, ?_, ?_⟩
  · norm_num +decide [sInCem100, sOutCem85, dashboardStockSummary,
      dashboardKeys, dashboardEntry, astypeFloatSum, optList,
      List.eraseDups, List.eraseDups.loop]
  · norm_num +decide [sInCem100, sOutCem85, dashboardLowStock,
      dashboardStockSummary, dashboardKeys, dashboardEntry, astypeFloatSum,
      optList, List.eraseDups, List.eraseDups.loop]
  · simp only [dashboardLowStockSpecFlag, decide_eq_true_eq]
    norm_num

/-- C8 (amended): the dashboard flags a (material, unit) group as low
stock exactly when its current stock (cumulative inward minus
cumulative outward) is at most 10 - a fixed dashboard-only threshold,
independent of any configured low-stock limit. -/
theorem dashboard_low_stock_threshold :
    ∀ (inw : List InwardRow) (outw : List OutwardRow) (s l : List DashEntry),
      dashboardStockSummary inw outw = some s →
      dashboardLowStock inw outw = some l →
      ∀ e ∈ s, (e ∈ l ↔ e.currentStock ≤ 10) ∧
        e.currentStock = e.totalInward - e.totalOutward := by
  intro inw outw s l hs hl e he
  have hl2 : l = s.filter (fun e => decide (e.currentStock ≤ 10)) := by
    rw [dashboardLowStock, hs] at hl
    simpa using hl.symm
  constructor
  · rw [hl2]
    simp [List.mem_filter, he]
  · rcases optList_mem hs e he with ⟨k, _, hk⟩
    simp only [dashboardEntry] at hk
    cases h1 : astypeFloatSum ((inw.filter (fun r => r.material == k.1 && r.unit == k.2)).map (fun r => r.quantity)) with
    | none =>
      rw [h1] at hk
      exact absurd hk (by simp)
    | some ti =>
      cases h2 : astypeFloatSum ((outw.filter (fun r => r.material == k.1 && r.unit == k.2)).map (fun r => r.quantity)) with
      | none =>
        rw [h1, h2] at hk
        exact absurd hk (by simp)
      | some tou =>
        rw [h1, h2] at hk
        injection hk with hk
        subst hk
        rfl

/-- Witness for the amended C8 at a concrete ledger. -/
theorem dashboard_low_stock_threshold_witness :
    (⟨"Cement", "Bags", 100, 85, 15⟩ : DashEntry).currentStock =
      (⟨"Cement", "Bags", 100, 85, 15⟩ : DashEntry).totalInward -
        (⟨"Cement", "Bags", 100, 85, 15⟩ : DashEntry).totalOutward := by
  have hs : dashboardStockSummary [sInCem100] [sOutCem85] =
      some [⟨"Cement", "Bags", 100, 85, 15⟩] := by
    norm_num +decide [sInCem100, sOutCem85, dashboardStockSummary,
      dashboardKeys, dashboardEntry, astypeFloatSum, optList,
      List.eraseDups, List.eraseDups.loop]
  have hl : dashboardLowStock [sInCem100] [sOutCem85] = some [] := by
    norm_num +decide [sInCem100, sOutCem85, dashboardLowStock,
      dashboardStockSummary, dashboardKeys, dashboardEntry, astypeFloatSum,
      optList, List.eraseDups, List.eraseDups.loop]
  exact (dashboard_low_stock_threshold [sInCem100] [sOutCem85] _ _ hs hl
    _ (by simp)).2

/-- C9: a submit with any missing required field (empty material, no
vendor chosen, non-positive quantity or rate, empty invoice,
received-by, issued-to or issued-by) leaves the register unchanged and
reports a validation error, and the register row is appended exactly
when the validation condition holds. -/
theorem submit_validation_guard :
    ∀ (regI : List InwardRow) (fI : InwardForm) (regO : List OutwardRow)
      (fO : OutwardForm),
      ((fI.material = "" ∨ fI.vendor = "Select Vendor" ∨ fI.quantity ≤ 0 ∨
          fI.rate ≤ 0 ∨ fI.invoice = "" ∨ fI.receivedBy = "" →
          submitInwardEntry regI fI = (regI, false)) ∧
        (submitInwardEntry regI fI = (regI ++ [inwardRowOfForm fI], true) ↔
          validInwardForm fI = true)) ∧
      ((fO.material = "" ∨ fO.quantity ≤ 0 ∨ fO.issuedTo = "" ∨
          fO.issuedBy = "" →
          submitOutwardEntry regO fO = (regO, false)) ∧
        (submitOutwardEntry regO fO = (regO ++ [outwardRowOfForm fO], true) ↔
          validOutwardForm fO = true)) := by
  intro regI fI regO fO
  refine ⟨⟨?_, ?_⟩, ⟨?_, ?_⟩⟩
  · intro hbad
    have hval : ¬ validInwardForm fI = true := by
      simp only [validInwardForm, Bool.and_eq_true, bne_iff_ne, ne_eq,
        decide_eq_true_eq]
      rintro ⟨⟨⟨⟨⟨hm, hv⟩, hq⟩, hr⟩, hin⟩, hrb⟩
      rcases hbad with h | h | h | h | h | h
      · exact hm h
      · exact hv h
      · exact absurd hq (not_lt.mpr h)
      · exact absurd hr (not_lt.mpr h)
      · exact hin h
      · exact hrb h
    rw [submitInwardEntry, if_neg hval]
  · constructor
    · intro hsub
      by_cases hv : validInwardForm fI = true
      · exact hv
      · rw [submitInwardEntry, if_neg hv] at hsub
        exact absurd (congrArg Prod.snd hsub) (by simp)
    · intro hv
      rw [submitInwardEntry, if_pos hv]
  · intro hbad
    have hval : ¬ validOutwardForm fO = true := by
      simp only [validOutwardForm, Bool.and_eq_true, bne_iff_ne, ne_eq,
        decide_eq_true_eq]
      rintro ⟨⟨⟨hm, hq⟩, hto⟩, hby⟩
      rcases hbad with h | h | h | h
      · exact hm h
      · exact absurd hq (not_lt.mpr h)
      · exact hto h
      · exact hby h
    rw [submitOutwardEntry, if_neg hval]
  · constructor
    · intro hsub
      by_cases hv : validOutwardForm fO = true
      · exact hv
      · rw [submitOutwardEntry, if_neg hv] at hsub
        exact absurd (congrArg Prod.snd hsub) (by simp)
    · intro hv
      rw [submitOutwardEntry, if_pos hv]

/-- Witness for C9 at concrete forms: a form missing a required field
appends nothing and reports the error; complete forms append exactly
their row. -/
theorem submit_validation_guard_witness :
    submitInwardEntry [] sInwFormBad = ([], false) ∧
    submitInwardEntry [] sInwForm = ([inwardRowOfForm sInwForm], true) ∧
    submitOutwardEntry [] sOutFormBad = ([], false) ∧
    submitOutwardEntry [] sOutForm = ([outwardRowOfForm sOutForm], true) := by
  have hbad := submit_validation_guard [] sInwFormBad [] sOutFormBad
  have hgood := submit_validation_guard [] sInwForm [] sOutForm
  refine ⟨hbad.1.1 (Or.inr (Or.inl rfl)), ?_,
    hbad.2.1 (Or.inr (Or.inr (Or.inl rfl))), ?_⟩
  · have := hgood.1.2.mpr (by decide)
    simpa using this
  · have := hgood.2.2.mpr (by decide)
    simpa using this

/-- C10: every row of the daily closing report satisfies
`Opening + Received + Returns - Issued - Losses = Closing` exactly, and
its Closing Stock equals the reconciliation-derived Current Stock of
its material. -/
theorem daily_closing_identity :
    ∀ (inw : List InwardRow) (outw : List OutwardRow) (ret : List ReturnRow)
      (dam : List DamageRow) (d : String) (recon : List ReconRow)
      (rows : List ClosingRow),
      calculate_reconciliation inw outw ret dam = some recon →
      generate_daily_closing inw outw ret dam d = some rows →
      ∀ cr ∈ rows,
        cr.openingStock + cr.received + cr.returned - cr.issued - cr.losses =
          cr.closingStock ∧
        ∃ rr ∈ recon, rr.material = cr.material ∧
          cr.closingStock = rr.currentStock := by
  intro inw outw ret dam d recon rows hrec hgen cr hcr
  rw [generate_daily_closing, hrec] at hgen
  rcases optList_mem hgen cr hcr with ⟨rr, hrr, hcl⟩
  simp only [closingFor] at hcl
  cases h1 : astypeFloatSum ((inw.filter (fun x => x.date == d && x.material == rr.material)).map (fun x => x.quantity)) with
  | none =>
    rw [h1] at hcl
    exact absurd hcl (by simp)
  | some rcv =>
    cases h2 : astypeFloatSum ((outw.filter (fun x => x.date == d && x.material == rr.material)).map (fun x => x.quantity)) with
    | none =>
      rw [h1, h2] at hcl
      exact absurd hcl (by simp)
    | some iss =>
      cases h3 : astypeFloatSum ((ret.filter (fun x => x.date == d && x.material == rr.material)).map (fun x => x.quantity)) with
      | none =>
        rw [h1, h2, h3] at hcl
        exact absurd hcl (by simp)
      | some rtd =>
        cases h4 : astypeFloatSum ((dam.filter (fun x => x.date == d && x.material == rr.material)).map (fun x => x.quantity)) with
        | none =>
          rw [h1, h2, h3, h4] at hcl
          exact absurd hcl (by simp)
        | some los =>
          rw [h1, h2, h3, h4] at hcl
          injection hcl with hcl
          subst hcl
          exact ⟨by ring, rr, hrr, rfl, rfl⟩

/-- Witness for C10 at a concrete ledger and closing date. -/
theorem daily_closing_identity_witness :
    (⟨"2024-01-05", "Cement", 0, 10, 3, 0, 0, 7⟩ : ClosingRow).openingStock +
      (⟨"2024-01-05", "Cement", 0, 10, 3, 0, 0, 7⟩ : ClosingRow).received +
      (⟨"2024-01-05", "Cement", 0, 10, 3, 0, 0, 7⟩ : ClosingRow).returned -
      (⟨"2024-01-05", "Cement", 0, 10, 3, 0, 0, 7⟩ : ClosingRow).issued -
      (⟨"2024-01-05", "Cement", 0, 10, 3, 0, 0, 7⟩ : ClosingRow).losses =
      (⟨"2024-01-05", "Cement", 0, 10, 3, 0, 0, 7⟩ : ClosingRow).closingStock := by
  have hrec : calculate_reconciliation [sInCement] [sOutCement] [] [] =
      some [⟨"Cement", 10, 3, 0, 0, 7⟩] := by
    norm_num +decide [sInCement, sOutCement, calculate_reconciliation,
      materialList, materialTotals, astypeFloatSum, optList, List.eraseDups,
      List.eraseDups.loop]
  have hgen : generate_daily_closing [sInCement] [sOutCement] [] []
      "2024-01-05" = some [⟨"2024-01-05", "Cement", 0, 10, 3, 0, 0, 7⟩] := by
    norm_num +decide [sInCement, sOutCement, generate_daily_closing,
      calculate_reconciliation, materialList, materialTotals, closingFor,
      astypeFloatSum, optList, List.eraseDups, List.eraseDups.loop]
  exact (daily_closing_identity [sInCement] [sOutCement] [] [] "2024-01-05"
    _ _ hrec hgen _ (by simp)).1

